import Mathlib

/-!
Verification of the time-ordered stream-processing stage implemented in
`src/trigger/TriggerGenericMaker.hpp` (the `TriggerGenericMaker` /
`TriggerGenericWorker` templates of the `dunedaq::trigger` namespace).

The worker logic is embedded directly from the C++ source.  Timestamps
(`daqdataformats::timestamp_t`, a 64-bit unsigned tick counter) are modelled
as `Nat`; no arithmetic in the embedded paths can wrap in practice and no
claim concerns overflow.  The element types `A` and `B` are kept abstract,
together with a projection giving each element's `time_start` tick.
Exceptions thrown by the pluggable algorithm are modelled by `Option`
results, and the `try`/`catch` blocks of the source become `match`es on
those options.  Send/receive on the bounded queues either succeed or time
out; the outcome is supplied by an explicit oracle.

`TimeSliceInputBuffer.hpp` and `TimeSliceOutputBuffer.hpp` are not part of
the source snapshot (only their call sites are), so those two components are
modelled from the specification, as marked on their definitions.
-/

namespace Trigger

/-- `Set<T>::Type` from `trigger/Set.hpp`: payload, heartbeat or unknown. -/
inductive SetType : Type
  | payload
  | heartbeat
  | unknown
deriving DecidableEq

/-- The time-tagged envelope `Set<T>`: type tag, half-open tick interval
`[start_time, end_time)`, origin element id, sequence number, and the
ordered payload objects. -/
structure TSet (T : Type) : Type where
  stype : SetType
  start_time : Nat
  end_time : Nat
  origin : Nat
  seqno : Nat
  objects : List T
deriving DecidableEq

/-- The ERS issues raised by the worker, one constructor per call site kind:
`OutOfOrderSets` raised via `ers::warning`, `OutOfOrderSets` raised via
`ers::fatal`, `AlgorithmFatalError`, `AlgorithmFailedToSend`, and
`UnknownSetError`. -/
inductive Issue : Type
  | outOfOrderWarn (prev cur : Nat)
  | outOfOrderFatal (endTime hbStart : Nat)
  | algorithmFatal
  | algorithmFailedToSend
  | unknownSetError
deriving DecidableEq

/-- Sort a list by the `time_start` projection `ts` (the buffers sort their
contents by element `time_start` before emitting them). -/
def sortByTs (ts : T → Nat) (l : List T) : List T :=
  List.insertionSort (fun a b => ts a ≤ ts b) l

/-- The pluggable algorithm (`MAKER`): `apply` is `operator()(A, vector<B>&)`
and `flush` is `flush(timestamp_t, vector<B>&)`.  The algorithm may carry
internal state `σ`; a `none` result models a thrown exception. -/
structure Maker (σ A B : Type) : Type where
  apply : σ → A → Option (σ × List B)
  flush : σ → Nat → Option (σ × List B)

/-- Counters and send oracle of the parent `TriggerGenericMaker`:
`m_sent_count` plus the environment's answers for successive sends on the
output queue (`true` = accepted, `false` = `TimeoutExpired`; an exhausted
oracle means every further send succeeds). -/
structure Parent : Type where
  sent_count : Nat
  oracle : List Bool
deriving DecidableEq

/-- `TriggerGenericMaker::send`: attempts to push on the output queue within
`m_queue_timeout`; on success increments `m_sent_count` and returns `true`,
on `TimeoutExpired` returns `false`. -/
def trySend (p : Parent) : Bool × Parent :=
  match p.oracle with
  | [] => (true, { sent_count := p.sent_count + 1, oracle := [] })
  | b :: rest =>
    (b, { sent_count := if b then p.sent_count + 1 else p.sent_count, oracle := rest })

namespace TimeSliceInputBuffer

/-- Modelled from the spec: `TimeSliceInputBuffer<A>` (its header
`TimeSliceInputBuffer.hpp` is not in the source snapshot).  The state is
the in-progress slice: `none` when empty, otherwise the slice key
`(start_time, end_time)` together with the accumulated elements.
`buffer` accepts an input set: an empty buffer installs the set and
reports no complete slice; a set with the key of the in-progress slice is
absorbed into it; a set with a different key completes the buffered slice,
which is returned sorted by element `time_start`, and the new set becomes
the in-progress slice. -/
def buffer (ts : A → Nat) (st : Option (Nat × Nat × List A)) (inp : TSet A) :
    Option (Nat × Nat × List A) × Option (List A × Nat × Nat) :=
  match st with
  | none => (some (inp.start_time, inp.end_time, inp.objects), none)
  | some (s, e, elems) =>
    if s = inp.start_time ∧ e = inp.end_time then
      (some (s, e, elems ++ inp.objects), none)
    else
      (some (inp.start_time, inp.end_time, inp.objects), some (sortByTs ts elems, s, e))

/-- Modelled from the spec: `TimeSliceInputBuffer<A>::flush` — forcibly emits
whatever is buffered (sorted by `time_start`) or reports `none` if the
buffer is empty. -/
def flush (ts : A → Nat) (st : Option (Nat × Nat × List A)) :
    Option (Nat × Nat × List A) × Option (List A × Nat × Nat) :=
  match st with
  | none => (none, none)
  | some (s, e, elems) => (none, some (sortByTs ts elems, s, e))

end TimeSliceInputBuffer

/-- Modelled from the spec: the state of `TimeSliceOutputBuffer<B>` (its
header `TimeSliceOutputBuffer.hpp` is not in the source snapshot).
`buckets` holds the pending payload elements grouped by window index and
kept sorted by window index; `heartbeats` is the queue of pending heartbeat
markers in arrival (time) order; `watermark` is the largest `time_start`
observed from inserted elements and heartbeats. -/
structure OutBuf (B : Type) : Type where
  window_time : Nat
  buffer_time : Nat
  buckets : List (Nat × List B)
  heartbeats : List (TSet B)
  watermark : Nat
deriving DecidableEq

namespace TimeSliceOutputBuffer

/-- Insert one element into the bucket of window index `k`, keeping the
bucket list sorted by window index. -/
def addToBucket (k : Nat) (e : B) : List (Nat × List B) → List (Nat × List B)
  | [] => [(k, [e])]
  | (j, es) :: rest =>
    if k < j then (k, [e]) :: (j, es) :: rest
    else if k = j then (j, es ++ [e]) :: rest
    else (j, es) :: addToBucket k e rest

/-- Modelled from the spec: `TimeSliceOutputBuffer<B>::buffer` — each element
goes into the bucket of window index `⌊time_start / window_time⌋`, and the
watermark advances to the largest inserted `time_start`. -/
def buffer (tsB : B → Nat) (buf : OutBuf B) (elems : List B) : OutBuf B :=
  elems.foldl
    (fun b e =>
      { b with
        buckets := addToBucket (tsB e / b.window_time) e b.buckets,
        watermark := max b.watermark (tsB e) })
    buf

/-- Modelled from the spec: `TimeSliceOutputBuffer<B>::buffer_heartbeat` —
enqueue the heartbeat marker and advance the watermark to its
`start_time`. -/
def buffer_heartbeat (buf : OutBuf B) (hb : TSet B) : OutBuf B :=
  { buf with
    heartbeats := buf.heartbeats ++ [hb],
    watermark := max buf.watermark hb.start_time }

/-- The payload `Set<B>` formed from window `k`: `type=payload`, interval
`[k·window_time, (k+1)·window_time)`, objects sorted by `time_start`.
`origin` and `seqno` are filled in by the worker before sending. -/
def windowSet (tsB : B → Nat) (buf : OutBuf B) (k : Nat) (es : List B) : TSet B :=
  { stype := SetType.payload,
    start_time := k * buf.window_time,
    end_time := (k + 1) * buf.window_time,
    origin := 0, seqno := 0,
    objects := sortByTs tsB es }

/-- Modelled from the spec: `TimeSliceOutputBuffer<B>::flush` — pop the
earliest pending item: the earliest payload window or the next queued
heartbeat, whichever comes first in time, with a payload window of equal
`start_time` emitted before the heartbeat.  Returns `none` when nothing is
pending. -/
def flushOut (tsB : B → Nat) (buf : OutBuf B) : Option (TSet B × OutBuf B) :=
  match buf.buckets, buf.heartbeats with
  | [], [] => none
  | (k, es) :: bs, [] => some (windowSet tsB buf k es, { buf with buckets := bs })
  | [], hb :: hbs => some (hb, { buf with heartbeats := hbs })
  | (k, es) :: bs, hb :: hbs =>
    if k * buf.window_time ≤ hb.start_time then
      some (windowSet tsB buf k es, { buf with buckets := bs })
    else
      some (hb, { buf with heartbeats := hbs })

/-- Modelled from the spec: `TimeSliceOutputBuffer<B>::ready` — whether the
earliest pending item may be released: window `[k·w, (k+1)·w)` is closed
once `watermark ≥ (k+1)·w + buffer_time`; a pending heartbeat that comes
first is always releasable (the watermark has already reached it). -/
def ready (buf : OutBuf B) : Bool :=
  match buf.buckets, buf.heartbeats with
  | [], [] => false
  | (k, _) :: _, [] =>
    decide ((k + 1) * buf.window_time + buf.buffer_time ≤ buf.watermark)
  | [], _ :: _ => true
  | (k, _) :: _, hb :: _ =>
    if k * buf.window_time ≤ hb.start_time then
      decide ((k + 1) * buf.window_time + buf.buffer_time ≤ buf.watermark)
    else true

/-- Modelled from the spec: `TimeSliceOutputBuffer<B>::empty`. -/
def empty (buf : OutBuf B) : Bool :=
  buf.buckets.isEmpty && buf.heartbeats.isEmpty

/-- Number of pending items (payload windows plus heartbeats); each
`flushOut` pops exactly one. -/
def obSize (buf : OutBuf B) : Nat :=
  buf.buckets.length + buf.heartbeats.length

end TimeSliceOutputBuffer

open TimeSliceOutputBuffer

/-- Result of `TriggerGenericWorker::process_slice`: final algorithm state,
the accumulated `out_vec`, and the issues raised. -/
structure SliceRes (σ B : Type) : Type where
  maker : σ
  outs : List B
  issues : List Issue
deriving DecidableEq

/-- `TriggerGenericWorker::process_slice` (both `Set<A>` specializations have
the same body): call the algorithm on each slice element in order,
appending outputs to `out_vec`; a thrown exception raises
`AlgorithmFatalError` and returns early, keeping the outputs accumulated so
far. -/
def processSlice (m : Maker σ A B) : σ → List A → SliceRes σ B
  | s, [] => ⟨s, [], []⟩
  | s, x :: xs =>
    match m.apply s x with
    | none => ⟨s, [], [Issue.algorithmFatal]⟩
    | some (s', ys) =>
      let r := processSlice m s' xs
      ⟨r.maker, ys ++ r.outs, r.issues⟩

/-! ### Mode 3 worker: `TriggerGenericWorker<Set<A>, Set<B>, MAKER>` -/

/-- Worker state of the `Set<A> → Set<B>` specialization: input buffer,
output buffer, `m_prev_start_time`, the algorithm state and the parent
counters. -/
structure W3State (A B σ : Type) : Type where
  inBuf : Option (Nat × Nat × List A)
  outBuf : OutBuf B
  prev_start_time : Nat
  maker : σ
  parent : Parent
deriving DecidableEq

/-- Result of one worker step: the new state, the issues raised in program
order, and the trace of send attempts (the attempted `Set<B>` tagged with
whether the send succeeded). -/
structure StepRes (A B σ : Type) : Type where
  st : W3State A B σ
  issues : List Issue
  sends : List (TSet B × Bool)
deriving DecidableEq

/-- Result of running an output-buffer emission loop: the drained buffer, the
updated parent counters, the send attempts, and the issues raised. -/
structure EmitRes (B : Type) : Type where
  buf : OutBuf B
  parent : Parent
  sends : List (TSet B × Bool)
  issues : List Issue
deriving DecidableEq

/-- The `while (m_out_buffer.ready())` emission loop at the end of Mode 3
`process`: pop the next window or heartbeat, stamp it with
`seqno = m_sent_count` and the configured origin; send heartbeats, send
payload sets only when they have a nonzero number of objects (an
`AlgorithmFailedToSend` error is raised when a send times out, and the set
is dropped).  The loop pops one pending item per iteration, so the fuel
`obSize buf` used by `emitLoopRun` runs it to completion. -/
def emitLoopFuel (tsB : B → Nat) (srcid : Nat) : Nat → OutBuf B → Parent → EmitRes B
  | 0, buf, p => ⟨buf, p, [], []⟩
  | fuel + 1, buf, p =>
    if ready buf then
      match flushOut tsB buf with
      | none => ⟨buf, p, [], []⟩
      | some (out, buf') =>
        let out1 := { out with seqno := p.sent_count, origin := srcid }
        match out1.stype with
        | SetType.heartbeat =>
          let sr := trySend p
          let r := emitLoopFuel tsB srcid fuel buf' sr.2
          ⟨r.buf, r.parent, (out1, sr.1) :: r.sends,
            (if sr.1 then [] else [Issue.algorithmFailedToSend]) ++ r.issues⟩
        | SetType.payload =>
          if out1.objects.isEmpty then
            emitLoopFuel tsB srcid fuel buf' p
          else
            let sr := trySend p
            let r := emitLoopFuel tsB srcid fuel buf' sr.2
            ⟨r.buf, r.parent, (out1, sr.1) :: r.sends,
              (if sr.1 then [] else [Issue.algorithmFailedToSend]) ++ r.issues⟩
        | SetType.unknown => emitLoopFuel tsB srcid fuel buf' p
    else ⟨buf, p, [], []⟩

/-- The Mode 3 `process` emission loop run to completion (fuel `obSize buf`
suffices because each iteration pops exactly one pending item). -/
def emitLoopRun (tsB : B → Nat) (srcid : Nat) (buf : OutBuf B) (p : Parent) : EmitRes B :=
  emitLoopFuel tsB srcid (obSize buf) buf p

/-- The `while (!m_out_buffer.empty())` loop of Mode 3 `drain`: pop every
pending item (closed or not), stamp `seqno` and origin, and send it only
when `drop` is false, with the same heartbeat / nonempty-payload guards as
`process`. -/
def drainLoopFuel (tsB : B → Nat) (srcid : Nat) (drop : Bool) :
    Nat → OutBuf B → Parent → EmitRes B
  | 0, buf, p => ⟨buf, p, [], []⟩
  | fuel + 1, buf, p =>
    match flushOut tsB buf with
    | none => ⟨buf, p, [], []⟩
    | some (out, buf') =>
      let out1 := { out with seqno := p.sent_count, origin := srcid }
      match out1.stype with
      | SetType.heartbeat =>
        if drop then drainLoopFuel tsB srcid drop fuel buf' p
        else
          let sr := trySend p
          let r := drainLoopFuel tsB srcid drop fuel buf' sr.2
          ⟨r.buf, r.parent, (out1, sr.1) :: r.sends,
            (if sr.1 then [] else [Issue.algorithmFailedToSend]) ++ r.issues⟩
      | SetType.payload =>
        if out1.objects.isEmpty then
          drainLoopFuel tsB srcid drop fuel buf' p
        else if drop then
          drainLoopFuel tsB srcid drop fuel buf' p
        else
          let sr := trySend p
          let r := drainLoopFuel tsB srcid drop fuel buf' sr.2
          ⟨r.buf, r.parent, (out1, sr.1) :: r.sends,
            (if sr.1 then [] else [Issue.algorithmFailedToSend]) ++ r.issues⟩
      | SetType.unknown => drainLoopFuel tsB srcid drop fuel buf' p

/-- The Mode 3 `drain` emission loop run to completion (fuel `obSize buf`
suffices because each iteration pops exactly one pending item). -/
def drainLoopRun (tsB : B → Nat) (srcid : Nat) (drop : Bool) (buf : OutBuf B) (p : Parent) :
    EmitRes B :=
  drainLoopFuel tsB srcid drop (obSize buf) buf p

/-- Tail shared by every branch of Mode 3 `process` that falls through the
`switch`: buffer the collected elements if any, then run the emission
loop. -/
def emitPhase (tsB : B → Nat) (srcid : Nat) (st : W3State A B σ) (elems : List B) :
    StepRes A B σ :=
  let ob := if elems.isEmpty then st.outBuf else TimeSliceOutputBuffer.buffer tsB st.outBuf elems
  let r := emitLoopRun tsB srcid ob st.parent
  ⟨{ st with outBuf := r.buf, parent := r.parent }, r.issues, r.sends⟩

/-- The `kPayload` branch of Mode 3 `process`, after the out-of-order check
and the `m_prev_start_time` update: feed the set to the input buffer; if no
slice is complete, return at once (skipping the emission loop), otherwise
run the algorithm on the completed slice and fall through to the emission
phase. -/
def payloadAfterCheck (ts : A → Nat) (tsB : B → Nat) (m : Maker σ A B) (srcid : Nat)
    (st : W3State A B σ) (inp : TSet A) : StepRes A B σ :=
  match TimeSliceInputBuffer.buffer ts st.inBuf inp with
  | (ib', none) => ⟨{ st with inBuf := ib' }, [], []⟩
  | (ib', some (slice, _, _)) =>
    let pr := processSlice m st.maker slice
    let r := emitPhase tsB srcid { st with inBuf := ib', maker := pr.maker } pr.outs
    { r with issues := pr.issues ++ r.issues }

/-- The `kHeartbeat` branch of Mode 3 `process` after the input-buffer flush:
`ib'` is the flushed input buffer, `σ1` the algorithm state and `elems` the
outputs after processing the flushed slice (with its issues `iss`).  The
heartbeat marker is buffered on the output buffer, then the algorithm is
flushed: a thrown exception raises `AlgorithmFatalError` and returns
without buffering the elements or running the emission loop; otherwise the
flushed outputs are appended and the emission phase runs. -/
def heartbeatAfterFlush (tsB : B → Nat) (m : Maker σ A B) (srcid : Nat)
    (st : W3State A B σ) (inp : TSet A) (ib' : Option (Nat × Nat × List A))
    (σ1 : σ) (elems : List B) (iss : List Issue) : StepRes A B σ :=
  let hb : TSet B :=
    { stype := SetType.heartbeat, start_time := inp.start_time, end_time := inp.end_time,
      origin := srcid, seqno := 0, objects := [] }
  let st1 : W3State A B σ :=
    { st with
      inBuf := ib',
      outBuf := TimeSliceOutputBuffer.buffer_heartbeat st.outBuf hb,
      maker := σ1 }
  match m.flush σ1 inp.end_time with
  | none => ⟨st1, iss ++ [Issue.algorithmFatal], []⟩
  | some (σ2, more) =>
    let r := emitPhase tsB srcid { st1 with maker := σ2 } (elems ++ more)
    { r with issues := iss ++ r.issues }

/-- `TriggerGenericWorker<Set<A>, Set<B>, MAKER>::process`: dispatch on the
input set type.  A payload set first gets the out-of-order check against
`m_prev_start_time` (warn and absorb anyway), a heartbeat flushes the input
buffer (with a fatal `OutOfOrderSets` when the flushed slice ends after the
heartbeat's start, the slice still being processed), an unknown set raises
`UnknownSetError`; all branches except an incomplete payload slice and an
algorithm-flush failure fall through to the emission loop. -/
def process3 (ts : A → Nat) (tsB : B → Nat) (m : Maker σ A B) (srcid : Nat)
    (st : W3State A B σ) (inp : TSet A) : StepRes A B σ :=
  match inp.stype with
  | SetType.payload =>
    let w :=
      if st.prev_start_time ≠ 0 ∧ inp.start_time < st.prev_start_time then
        [Issue.outOfOrderWarn st.prev_start_time inp.start_time]
      else []
    let st1 := { st with prev_start_time := inp.start_time }
    let r := payloadAfterCheck ts tsB m srcid st1 inp
    { r with issues := w ++ r.issues }
  | SetType.heartbeat =>
    match TimeSliceInputBuffer.flush ts st.inBuf with
    | (ib', none) => heartbeatAfterFlush tsB m srcid st inp ib' st.maker [] []
    | (ib', some (slice, _, e)) =>
      let fi := if inp.start_time < e then [Issue.outOfOrderFatal e inp.start_time] else []
      let pr := processSlice m st.maker slice
      heartbeatAfterFlush tsB m srcid st inp ib' pr.maker pr.outs (fi ++ pr.issues)
  | SetType.unknown =>
    let r := emitPhase tsB srcid st ([] : List B)
    { r with issues := Issue.unknownSetError :: r.issues }

/-- `TriggerGenericWorker<Set<A>, Set<B>, MAKER>::drain`: flush the input
buffer through the algorithm, buffer any outputs, then pop every pending
item from the output buffer, forwarding (with the usual guards) only when
`drop` is false. -/
def drain3 (ts : A → Nat) (tsB : B → Nat) (m : Maker σ A B) (srcid : Nat)
    (drop : Bool) (st : W3State A B σ) : StepRes A B σ :=
  let fl := TimeSliceInputBuffer.flush ts st.inBuf
  let pr :=
    match fl.2 with
    | none => (⟨st.maker, [], []⟩ : SliceRes σ B)
    | some (slice, _, _) => processSlice m st.maker slice
  let ob1 := if pr.outs.isEmpty then st.outBuf else TimeSliceOutputBuffer.buffer tsB st.outBuf pr.outs
  let r := drainLoopRun tsB srcid drop ob1 st.parent
  ⟨{ st with inBuf := fl.1, outBuf := r.buf, maker := pr.maker, parent := r.parent },
    pr.issues ++ r.issues, r.sends⟩

/-- The worker loop of `do_work` restricted to Mode 3: process each received
input in arrival order. -/
def run3 (ts : A → Nat) (tsB : B → Nat) (m : Maker σ A B) (srcid : Nat) :
    W3State A B σ → List (TSet A) → StepRes A B σ
  | st, [] => ⟨st, [], []⟩
  | st, i :: rest =>
    let r := process3 ts tsB m srcid st i
    let r2 := run3 ts tsB m srcid r.st rest
    ⟨r2.st, r.issues ++ r2.issues, r.sends ++ r2.sends⟩

/-- A complete Mode 3 worker run as performed by `do_work`: process the
received inputs, then drain (with `drop = true` on a normal stop). -/
def runAndDrain (ts : A → Nat) (tsB : B → Nat) (m : Maker σ A B) (srcid : Nat)
    (st : W3State A B σ) (inputs : List (TSet A)) (drop : Bool) : StepRes A B σ :=
  let r := run3 ts tsB m srcid st inputs
  let d := drain3 ts tsB m srcid drop r.st
  ⟨d.st, r.issues ++ d.issues, r.sends ++ d.sends⟩

/-- The Mode 3 worker state right after `do_start`: empty buffers, counters
reset, `m_prev_start_time = 0`, a fresh algorithm instance `σ0`, windowing
configured to `(window_time, buffer_time)`, and a given send oracle. -/
def initState (σ0 : σ) (w b : Nat) (oracle : List Bool) : W3State A B σ :=
  { inBuf := none,
    outBuf := { window_time := w, buffer_time := b, buckets := [], heartbeats := [], watermark := 0 },
    prev_start_time := 0,
    maker := σ0,
    parent := { sent_count := 0, oracle := oracle } }

/-! ### Mode 2 worker: `TriggerGenericWorker<Set<A>, OUT, MAKER>` -/

/-- Worker state of the `Set<A> → OUT` specialization (no output buffer, no
`m_prev_start_time`). -/
structure W2State (A σ : Type) : Type where
  inBuf : Option (Nat × Nat × List A)
  maker : σ
  parent : Parent
deriving DecidableEq

/-- Result of one Mode 2 worker step. -/
structure Step2Res (A B σ : Type) : Type where
  st : W2State A σ
  issues : List Issue
  sends : List (B × Bool)
deriving DecidableEq

/-- Result of a Mode 2 send loop. -/
structure Send2Res (B : Type) : Type where
  parent : Parent
  sends : List (B × Bool)
  issues : List Issue
deriving DecidableEq

/-- One send attempt per element, in the order of the given list (an
`AlgorithmFailedToSend` error is raised when a send times out and the
output is dropped). -/
def sendEach : List B → Parent → Send2Res B
  | [], p => ⟨p, [], []⟩
  | x :: xs, p =>
    let sr := trySend p
    let r := sendEach xs sr.2
    ⟨r.parent, (x, sr.1) :: r.sends,
      (if sr.1 then [] else [Issue.algorithmFailedToSend]) ++ r.issues⟩

/-- The `while (out_vec.size()) { send(out_vec.back()); out_vec.pop_back(); }`
loop of Mode 2 `process` (and of the base template): the vector is emptied
from the back, so the elements are attempted in reverse order. -/
def sendLoop2 (v : List B) (p : Parent) : Send2Res B :=
  sendEach v.reverse p

/-- `TriggerGenericWorker<Set<A>, OUT, MAKER>::process`: a payload set feeds
the input buffer and, when a slice completes, the algorithm runs on each
element in time order and the collected `out_vec` is emptied from the back
onto the output queue; a heartbeat flushes the input buffer (fatal
`OutOfOrderSets` when the flushed slice ends after the heartbeat start,
the slice still processed) and then flushes the algorithm, a thrown flush
exception raising `AlgorithmFatalError` and discarding `out_vec`; an
unknown set raises `UnknownSetError`. -/
def process2 (ts : A → Nat) (m : Maker σ A B) (st : W2State A σ) (inp : TSet A) :
    Step2Res A B σ :=
  match inp.stype with
  | SetType.payload =>
    match TimeSliceInputBuffer.buffer ts st.inBuf inp with
    | (ib', none) => ⟨{ st with inBuf := ib' }, [], []⟩
    | (ib', some (slice, _, _)) =>
      let pr := processSlice m st.maker slice
      let sr := sendLoop2 pr.outs st.parent
      ⟨⟨ib', pr.maker, sr.parent⟩, pr.issues ++ sr.issues, sr.sends⟩
  | SetType.heartbeat =>
    let fl := TimeSliceInputBuffer.flush ts st.inBuf
    match fl.2 with
    | none =>
      match m.flush st.maker inp.end_time with
      | none => ⟨{ st with inBuf := fl.1 }, [Issue.algorithmFatal], []⟩
      | some (σ2, outs) =>
        let sr := sendLoop2 outs st.parent
        ⟨⟨fl.1, σ2, sr.parent⟩, sr.issues, sr.sends⟩
    | some (slice, _, e) =>
      let fi := if inp.start_time < e then [Issue.outOfOrderFatal e inp.start_time] else []
      let pr := processSlice m st.maker slice
      match m.flush pr.maker inp.end_time with
      | none =>
        ⟨⟨fl.1, pr.maker, st.parent⟩, fi ++ pr.issues ++ [Issue.algorithmFatal], []⟩
      | some (σ2, more) =>
        let sr := sendLoop2 (pr.outs ++ more) st.parent
        ⟨⟨fl.1, σ2, sr.parent⟩, fi ++ pr.issues ++ sr.issues, sr.sends⟩
  | SetType.unknown => ⟨st, [Issue.unknownSetError], []⟩

/-- The `out_vec` produced by the first half of Mode 2 `drain`: flush the
input buffer and, when it yields a slice, run the algorithm on it (`none`
when the input buffer was empty, in which case the send loop is never
entered). -/
def drain2Setup (ts : A → Nat) (m : Maker σ A B) (st : W2State A σ) :
    Option (SliceRes σ B) :=
  match (TimeSliceInputBuffer.flush ts st.inBuf).2 with
  | none => none
  | some (slice, _, _) => some (processSlice m st.maker slice)

/-- One iteration of the send loop in Mode 2 `drain`, exactly as written in
the source: `while (out_vec.size()) { if (!drop) { send(out_vec.back());
out_vec.pop_back(); } }` — both the send and the `pop_back` are guarded by
`!drop`, so when `drop` is true an iteration leaves the state unchanged. -/
def drain2LoopStep (drop : Bool) (s : List B × Parent) : List B × Parent :=
  match s with
  | ([], p) => ([], p)
  | (x :: xs, p) =>
    if drop then (x :: xs, p)
    else ((x :: xs).dropLast, (trySend p).2)

/-- The base-template worker (`Mode 1`, no envelopes):
`TriggerGenericWorker<IN, OUT, MAKER>::process` calls the algorithm once on
the input (a thrown exception raises `AlgorithmFatalError` and returns with
nothing sent), then empties `out_vec` from the back onto the output
queue. -/
def process1 (m : Maker σ A B) (σ1 : σ) (p : Parent) (inp : A) :
    (σ × Parent) × List Issue × List (B × Bool) :=
  match m.apply σ1 inp with
  | none => ((σ1, p), [Issue.algorithmFatal], [])
  | some (σ2, outs) =>
    let sr := sendLoop2 outs p
    ((σ2, sr.parent), sr.issues, sr.sends)

/-! ### The `do_work` receive loop of `TriggerGenericMaker` -/

/-- Events of the `do_work` driver loop: a read of the running flag, a
successful receive (followed by `worker.process`), a receive that timed
out, and the final `worker.drain(true)` call. -/
inductive DWEvent : Type
  | flagRead (b : Bool)
  | recvOk
  | recvFail
  | drainCall
deriving DecidableEq

/-- The inner `while (receive(in)) worker.process(in);` loop: given the
outcomes the input channel offers, it receives until the first timeout
(an exhausted schedule also times out). -/
def innerRecvs : List Bool → List DWEvent
  | [] => [DWEvent.recvFail]
  | ok :: rest => if ok then DWEvent.recvOk :: innerRecvs rest else [DWEvent.recvFail]

/-- The event trace of `TriggerGenericMaker::do_work`: each schedule entry is
one outer iteration in which the running flag is read `true` and the inner
receive loop runs with the given outcomes; after the last entry the flag
is read `false`, the outer loop exits and `worker.drain(true)` runs. -/
def doWorkTrace : List (List Bool) → List DWEvent
  | [] => [DWEvent.flagRead false, DWEvent.drainCall]
  | rs :: rest => DWEvent.flagRead true :: (innerRecvs rs ++ doWorkTrace rest)

/-- The suffix of a trace strictly after the first read of the running flag
that returned `false` (the whole trace has no such read ⇒ empty suffix). -/
def afterFalseFlag : List DWEvent → List DWEvent
  | [] => []
  | DWEvent.flagRead false :: rest => rest
  | _ :: rest => afterFalseFlag rest

/-! ### Sequence-number bookkeeping

Every Mode 3 send site stamps the outgoing set with
`out.seqno = m_parent.m_sent_count` just before the send attempt, and
`m_sent_count` is incremented exactly on successful sends.  `SeqAligned c tr`
captures the resulting shape of a send-attempt trace started at
`m_sent_count = c`. -/

/-- Number of successful sends in a send-attempt trace. -/
def succCount (tr : List (TSet B × Bool)) : Nat :=
  (tr.filter (fun x => x.2)).length

/-- The `seqno` values of the successfully sent sets, in emission order. -/
def seqnosOfSuccesses (tr : List (TSet B × Bool)) : List Nat :=
  (tr.filter (fun x => x.2)).map (fun x => x.1.seqno)

/-- A send-attempt trace started at `m_sent_count = c`: each attempted set
carries the current counter as `seqno`, and the counter advances only on
success. -/
def SeqAligned : Nat → List (TSet B × Bool) → Prop
  | _, [] => True
  | c, (s, ok) :: rest => s.seqno = c ∧ SeqAligned (cond ok (c + 1) c) rest

/-- The arithmetic sequence `c, c+1, …, c+n-1`. -/
def seqFrom : Nat → Nat → List Nat
  | _, 0 => []
  | c, n + 1 => c :: seqFrom (c + 1) n

/-- Number of heartbeat-typed send attempts in a trace. -/
def hbAttempts (tr : List (TSet B × Bool)) : Nat :=
  (tr.filter (fun s => decide (s.1.stype = SetType.heartbeat))).length

/-- A well-formed output buffer: everything in the heartbeat queue is
heartbeat-typed (the worker only ever buffers heartbeat-typed markers
there). -/
def HbWF (buf : OutBuf B) : Prop :=
  ∀ h ∈ buf.heartbeats, h.stype = SetType.heartbeat

/-! ### Concrete fixtures for counterexamples and witnesses -/

/-- A pass-through test algorithm on `Nat` elements: `apply` emits its input,
`flush` emits nothing, neither throws. -/
def idMaker : Maker Unit Nat Nat :=
  ⟨fun _ x => some ((), [x]), fun _ _ => some ((), [])⟩

/-- An algorithm that emits two outputs per input, in a known order. -/
def dupMaker : Maker Unit Nat Nat :=
  ⟨fun _ x => some ((), [2 * x, 2 * x + 1]), fun _ _ => some ((), [])⟩

/-- An algorithm whose `apply` and `flush` always throw. -/
def throwMaker : Maker Unit Nat Nat :=
  ⟨fun _ _ => none, fun _ _ => none⟩

/-- A pending heartbeat marker for time `[100, 200)`. -/
def hbPending : TSet Nat := ⟨SetType.heartbeat, 100, 200, 7, 0, []⟩

/-- A Mode 3 worker state whose output buffer holds exactly one pending
heartbeat. -/
def stHbPending : W3State Nat Nat Unit :=
  ⟨none, ⟨100, 0, [], [hbPending], 200⟩, 0, (), ⟨0, []⟩⟩

/-- Payload input set covering `[0, 100)` with a single element at tick 5. -/
def wInp1 : TSet Nat := ⟨SetType.payload, 0, 100, 0, 0, [5]⟩

/-- Heartbeat input covering `[200, 300)`. -/
def wInp2 : TSet Nat := ⟨SetType.heartbeat, 200, 300, 0, 0, []⟩

/-- A Mode 3 worker state remembering a previous payload at tick 200. -/
def stPrev200 : W3State Nat Nat Unit := ⟨none, ⟨100, 0, [], [], 0⟩, 200, (), ⟨0, []⟩⟩

/-- A payload input arriving out of order (start 100 after a payload at
200). -/
def inpLate : TSet Nat := ⟨SetType.payload, 100, 200, 0, 0, [150]⟩

/-- A Mode 3 worker state whose input buffer holds a slice for `[0, 100)`. -/
def stSlice : W3State Nat Nat Unit :=
  ⟨some (0, 100, [5]), ⟨100, 0, [], [], 0⟩, 0, (), ⟨0, []⟩⟩

/-- A heartbeat that arrives before the buffered slice's end (50 < 100). -/
def hbEarly : TSet Nat := ⟨SetType.heartbeat, 50, 60, 0, 0, []⟩

/-- A fresh Mode 3 worker state with empty buffers. -/
def stEmptyW : W3State Nat Nat Unit := ⟨none, ⟨100, 0, [], [], 0⟩, 0, (), ⟨0, []⟩⟩

/-- Heartbeat input covering `[300, 400)`. -/
def hbIn : TSet Nat := ⟨SetType.heartbeat, 300, 400, 0, 0, []⟩

/-- The next payload after `stSlice`, completing the `[0, 100)` slice. -/
def inpNext : TSet Nat := ⟨SetType.payload, 100, 200, 0, 0, [7]⟩

/-- A Mode 2 worker state holding the slice `[0, 100)` with one element. -/
def st2c : W2State Nat Unit := ⟨some (0, 100, [5]), (), ⟨0, []⟩⟩

/-- The payload input completing that slice. -/
def inp2c : TSet Nat := ⟨SetType.payload, 100, 200, 0, 0, [7]⟩

/-- The Mode 2 worker state at stop: the input buffer still holds the slice
`[0, 100)` with the element 5. -/
def stDrain1 : W2State Nat Unit := ⟨some (0, 100, [5]), (), ⟨0, []⟩⟩


theorem flushOut_some_obSize {tsB : B → Nat} {buf buf' : OutBuf B} {out : TSet B}
    (h : flushOut tsB buf = some (out, buf')) : obSize buf' + 1 = obSize buf := by
  unfold flushOut at h
  rcases hb : buf.buckets with _ | ⟨⟨k, es⟩, bs⟩ <;>
    rcases hh : buf.heartbeats with _ | ⟨hb0, hbs⟩ <;>
      simp only [hb, hh] at h
  · cases h
  · cases h
    simp [obSize, hb, hh]
  · cases h
    simp [obSize, hb, hh]
  · split at h <;> cases h <;> simp [obSize, hb, hh] <;> omega

theorem flushOut_none_iff {tsB : B → Nat} {buf : OutBuf B} :
    flushOut tsB buf = none ↔ (buf.buckets = [] ∧ buf.heartbeats = []) := by
  unfold flushOut
  rcases hb : buf.buckets with _ | ⟨⟨k, es⟩, bs⟩ <;>
    rcases hh : buf.heartbeats with _ | ⟨hb0, hbs⟩ <;> simp
  split <;> simp

theorem ready_false_of_empty {buf : OutBuf B}
    (h1 : buf.buckets = []) (h2 : buf.heartbeats = []) : ready buf = false := by
  unfold ready
  rw [h1, h2]


/-- With fuel `obSize buf` the `process` emission loop runs to completion:
the final buffer is no longer `ready`, which is exactly the C++ loop's exit
condition, so the fuel-indexed model computes the entire
`while (m_out_buffer.ready())` loop. -/
theorem emitLoopFuel_final_not_ready (tsB : B → Nat) (srcid : Nat) :
    ∀ (fuel : Nat) (buf : OutBuf B) (p : Parent), obSize buf ≤ fuel →
      ready (emitLoopFuel tsB srcid fuel buf p).buf = false := by
  intro fuel
  induction fuel with
  | zero =>
    intro buf p hle
    have h0 : obSize buf = 0 := Nat.le_zero.mp hle
    have hb : buf.buckets = [] := List.length_eq_zero.mp (by unfold obSize at h0; omega)
    have hh : buf.heartbeats = [] := List.length_eq_zero.mp (by unfold obSize at h0; omega)
    simpa [emitLoopFuel] using ready_false_of_empty hb hh
  | succ fuel ih =>
    intro buf p hle
    rw [emitLoopFuel]
    by_cases hr : ready buf
    · rw [if_pos hr]
      rcases hf : flushOut tsB buf with _ | ⟨out, buf'⟩
      · have hemp := flushOut_none_iff.mp hf
        rw [ready_false_of_empty hemp.1 hemp.2] at hr
        exact (Bool.false_ne_true hr).elim
      · have hsz : obSize buf' ≤ fuel := by
          have := flushOut_some_obSize hf
          omega
        cases hst : out.stype with
        | heartbeat =>
          simp only [hst]
          exact ih buf' _ hsz
        | payload =>
          simp only [hst]
          by_cases he : out.objects.isEmpty
          · rw [if_pos he]
            exact ih buf' p hsz
          · rw [if_neg he]
            exact ih buf' _ hsz
        | unknown =>
          simp only [hst]
          exact ih buf' p hsz
    · rw [if_neg hr]
      simpa using hr

theorem emitLoopRun_completes (tsB : B → Nat) (srcid : Nat) (buf : OutBuf B) (p : Parent) :
    ready (emitLoopRun tsB srcid buf p).buf = false :=
  emitLoopFuel_final_not_ready tsB srcid (obSize buf) buf p (Nat.le_refl _)

/-- With fuel `obSize buf` the `drain` loop runs to completion: the final
buffer is empty (nothing left to pop), which is exactly the C++ loop's exit
condition `!m_out_buffer.empty()`. -/
theorem drainLoopFuel_final_empty (tsB : B → Nat) (srcid : Nat) (drop : Bool) :
    ∀ (fuel : Nat) (buf : OutBuf B) (p : Parent), obSize buf ≤ fuel →
      flushOut tsB (drainLoopFuel tsB srcid drop fuel buf p).buf = none := by
  intro fuel
  induction fuel with
  | zero =>
    intro buf p hle
    have h0 : obSize buf = 0 := Nat.le_zero.mp hle
    have hb : buf.buckets = [] := List.length_eq_zero.mp (by unfold obSize at h0; omega)
    have hh : buf.heartbeats = [] := List.length_eq_zero.mp (by unfold obSize at h0; omega)
    simpa [drainLoopFuel] using flushOut_none_iff.mpr ⟨hb, hh⟩
  | succ fuel ih =>
    intro buf p hle
    rw [drainLoopFuel]
    rcases hf : flushOut tsB buf with _ | ⟨out, buf'⟩
    · simpa using hf
    · have hsz : obSize buf' ≤ fuel := by
        have := flushOut_some_obSize hf
        omega
      cases hst : out.stype with
      | heartbeat =>
        simp only [hst]
        by_cases hd : drop
        · rw [if_pos hd]
          exact ih buf' p hsz
        · rw [if_neg hd]
          exact ih buf' _ hsz
      | payload =>
        simp only [hst]
        by_cases he : out.objects.isEmpty
        · rw [if_pos he]
          exact ih buf' p hsz
        · rw [if_neg he]
          by_cases hd : drop
          · rw [if_pos hd]
            exact ih buf' p hsz
          · rw [if_neg hd]
            exact ih buf' _ hsz
      | unknown =>
        simp only [hst]
        exact ih buf' p hsz

theorem drainLoopRun_empties (tsB : B → Nat) (srcid : Nat) (drop : Bool) (buf : OutBuf B)
    (p : Parent) :
    flushOut tsB (drainLoopRun tsB srcid drop buf p).buf = none :=
  drainLoopFuel_final_empty tsB srcid drop (obSize buf) buf p (Nat.le_refl _)

theorem succCount_nil : succCount ([] : List (TSet B × Bool)) = 0 := rfl

theorem succCount_cons (s : TSet B) (ok : Bool) (tr : List (TSet B × Bool)) :
    succCount ((s, ok) :: tr) = (cond ok 1 0) + succCount tr := by
  cases ok <;> simp [succCount, List.filter_cons, Nat.add_comm]

theorem succCount_append (t1 t2 : List (TSet B × Bool)) :
    succCount (t1 ++ t2) = succCount t1 + succCount t2 := by
  simp [succCount, List.filter_append]

theorem seqAligned_append {c : Nat} {t1 t2 : List (TSet B × Bool)}
    (h1 : SeqAligned c t1) (h2 : SeqAligned (c + succCount t1) t2) :
    SeqAligned c (t1 ++ t2) := by
  induction t1 generalizing c with
  | nil => simpa [succCount] using h2
  | cons hd tl ih =>
    obtain ⟨s, ok⟩ := hd
    obtain ⟨hs, htl⟩ := h1
    refine ⟨hs, ?_⟩
    cases ok with
    | false =>
      exact ih htl (by simpa [succCount_cons] using h2)
    | true =>
      refine ih htl ?_
      have he : c + 1 + succCount tl = c + succCount ((s, true) :: tl) := by
        rw [succCount_cons]; simp; omega
      simpa only [cond_true, he] using h2

theorem seqFrom_length (c n : Nat) : (seqFrom c n).length = n := by
  induction n generalizing c with
  | zero => rfl
  | succ n ih => simp [seqFrom, ih]

theorem seqFrom_mem {c n x : Nat} (h : x ∈ seqFrom c n) : c ≤ x := by
  induction n generalizing c with
  | zero => simp [seqFrom] at h
  | succ n ih =>
    simp only [seqFrom, List.mem_cons] at h
    rcases h with rfl | h
    · exact Nat.le_refl _
    · exact Nat.le_of_succ_le (ih h)

theorem seqFrom_pairwise (c n : Nat) : List.Pairwise (· < ·) (seqFrom c n) := by
  induction n generalizing c with
  | zero => simp [seqFrom]
  | succ n ih =>
    refine List.Pairwise.cons (fun x hx => ?_) (ih (c + 1))
    exact Nat.lt_of_succ_le (seqFrom_mem hx)

theorem seqFrom_eq_map_range (c n : Nat) :
    seqFrom c n = (List.range n).map (fun i => c + i) := by
  induction n generalizing c with
  | zero => simp [seqFrom]
  | succ n ih =>
    rw [List.range_succ_eq_map]
    simp only [seqFrom, List.map_cons, Nat.add_zero, List.map_map]
    congr 1
    rw [ih]
    exact List.map_congr_left fun i _ => by simp [Function.comp]; omega

theorem seqFrom_zero_eq_range (n : Nat) : seqFrom 0 n = List.range n := by
  rw [seqFrom_eq_map_range]
  simp

theorem seqAligned_seqnos {c : Nat} {tr : List (TSet B × Bool)} (h : SeqAligned c tr) :
    seqnosOfSuccesses tr = seqFrom c (succCount tr) := by
  induction tr generalizing c with
  | nil => rfl
  | cons hd tl ih =>
    obtain ⟨s, ok⟩ := hd
    obtain ⟨hs, htl⟩ := h
    cases ok with
    | false =>
      simpa [seqnosOfSuccesses, succCount, List.filter_cons] using ih htl
    | true =>
      have hrec := ih htl
      rw [succCount_cons]
      simp only [cond_true, Nat.add_comm 1 (succCount tl)]
      simp only [seqnosOfSuccesses, List.filter_cons, cond_true, List.map_cons, seqFrom]
      refine List.cons_eq_cons.mpr ⟨hs, ?_⟩
      simpa [seqnosOfSuccesses] using hrec

/-- Positional form of `SeqAligned`: the `i`-th attempt carries
`c +` (number of successes among the earlier attempts). -/
theorem seqAligned_get {c : Nat} {tr : List (TSet B × Bool)} (h : SeqAligned c tr) :
    ∀ (i : Nat) (hi : i < tr.length), (tr.get ⟨i, hi⟩).1.seqno = c + succCount (tr.take i) := by
  induction tr generalizing c with
  | nil => intro i hi; simp at hi
  | cons hd tl ih =>
    obtain ⟨s, ok⟩ := hd
    obtain ⟨hs, htl⟩ := h
    intro i hi
    cases i with
    | zero => simpa [succCount] using hs
    | succ i =>
      have hi' : i < tl.length := Nat.lt_of_succ_lt_succ hi
      have hr := ih htl i hi'
      cases ok with
      | false =>
        simp only [cond_false] at hr
        simp only [List.take_succ_cons, succCount_cons, cond_false, List.get_cons_succ]
        omega
      | true =>
        simp only [cond_true] at hr
        simp only [List.take_succ_cons, succCount_cons, cond_true, List.get_cons_succ]
        omega

theorem trySend_sent_count (p : Parent) :
    (trySend p).2.sent_count = p.sent_count + (cond (trySend p).1 1 0) := by
  unfold trySend
  rcases hp : p.oracle with _ | ⟨b, rest⟩
  · simp
  · cases b <;> simp

/-- Cons step of `SeqAligned` across one `trySend`. -/
theorem seqAligned_send_cons {p : Parent} {out1 : TSet B} {rest : List (TSet B × Bool)}
    (hseq : out1.seqno = p.sent_count)
    (hrest : SeqAligned (trySend p).2.sent_count rest) :
    SeqAligned p.sent_count ((out1, (trySend p).1) :: rest) := by
  refine ⟨hseq, ?_⟩
  have hts := trySend_sent_count p
  cases hok : (trySend p).1 with
  | false =>
    rw [hok] at hts
    simp only [cond_false, Nat.add_zero] at hts ⊢
    rwa [hts] at hrest
  | true =>
    rw [hok] at hts
    simp only [cond_true] at hts ⊢
    rwa [hts] at hrest

/-- The Mode 3 `process` emission loop produces a `SeqAligned` trace and
advances `m_sent_count` by exactly the number of successful sends. -/
theorem emitLoopFuel_seq (tsB : B → Nat) (srcid : Nat) :
    ∀ (fuel : Nat) (buf : OutBuf B) (p : Parent),
      (emitLoopFuel tsB srcid fuel buf p).parent.sent_count
          = p.sent_count + succCount (emitLoopFuel tsB srcid fuel buf p).sends
        ∧ SeqAligned p.sent_count (emitLoopFuel tsB srcid fuel buf p).sends := by
  intro fuel
  induction fuel with
  | zero => intro buf p; simp [emitLoopFuel, succCount, SeqAligned]
  | succ fuel ih =>
    intro buf p
    rw [emitLoopFuel]
    by_cases hr : ready buf
    · rw [if_pos hr]
      rcases hf : flushOut tsB buf with _ | ⟨out, buf'⟩
      · simp [succCount, SeqAligned]
      · have ih' := ih buf' (trySend p).2
        have hts := trySend_sent_count p
        cases hst : out.stype with
        | heartbeat =>
          simp only [hst]
          constructor
          · rw [succCount_cons]
            cases hok : (trySend p).1 <;>
              simp only [hok, cond_false, cond_true, Nat.add_zero] at hts ih' ⊢ <;> omega
          · exact seqAligned_send_cons rfl ih'.2
        | payload =>
          simp only [hst]
          by_cases he : out.objects.isEmpty
          · simp only [if_pos he]
            exact ih buf' p
          · simp only [if_neg he]
            constructor
            · rw [succCount_cons]
              cases hok : (trySend p).1 <;>
                simp only [hok, cond_false, cond_true, Nat.add_zero] at hts ih' ⊢ <;> omega
            · exact seqAligned_send_cons rfl ih'.2
        | unknown =>
          simp only [hst]
          exact ih buf' p
    · rw [if_neg hr]
      simp [succCount, SeqAligned]

/-- The Mode 3 `drain` emission loop produces a `SeqAligned` trace and
advances `m_sent_count` by exactly the number of successful sends. -/
theorem drainLoopFuel_seq (tsB : B → Nat) (srcid : Nat) (drop : Bool) :
    ∀ (fuel : Nat) (buf : OutBuf B) (p : Parent),
      (drainLoopFuel tsB srcid drop fuel buf p).parent.sent_count
          = p.sent_count + succCount (drainLoopFuel tsB srcid drop fuel buf p).sends
        ∧ SeqAligned p.sent_count (drainLoopFuel tsB srcid drop fuel buf p).sends := by
  intro fuel
  induction fuel with
  | zero => intro buf p; simp [drainLoopFuel, succCount, SeqAligned]
  | succ fuel ih =>
    intro buf p
    rw [drainLoopFuel]
    rcases hf : flushOut tsB buf with _ | ⟨out, buf'⟩
    · simp [succCount, SeqAligned]
    · have ih' := ih buf' (trySend p).2
      have hts := trySend_sent_count p
      cases hst : out.stype with
      | heartbeat =>
        simp only [hst]
        by_cases hd : drop
        · simp only [if_pos hd]
          exact ih buf' p
        · simp only [if_neg hd]
          constructor
          · rw [succCount_cons]
            cases hok : (trySend p).1 <;>
              simp only [hok, cond_false, cond_true, Nat.add_zero] at hts ih' ⊢ <;> omega
          · exact seqAligned_send_cons rfl ih'.2
      | payload =>
        simp only [hst]
        by_cases he : out.objects.isEmpty
        · simp only [if_pos he]
          exact ih buf' p
        · simp only [if_neg he]
          by_cases hd : drop
          · simp only [if_pos hd]
            exact ih buf' p
          · simp only [if_neg hd]
            constructor
            · rw [succCount_cons]
              cases hok : (trySend p).1 <;>
                simp only [hok, cond_false, cond_true, Nat.add_zero] at hts ih' ⊢ <;> omega
            · exact seqAligned_send_cons rfl ih'.2
      | unknown =>
        simp only [hst]
        exact ih buf' p

theorem emitPhase_seq (tsB : B → Nat) (srcid : Nat) (st : W3State A B σ) (elems : List B) :
    (emitPhase tsB srcid st elems).st.parent.sent_count
        = st.parent.sent_count + succCount (emitPhase tsB srcid st elems).sends
      ∧ SeqAligned st.parent.sent_count (emitPhase tsB srcid st elems).sends := by
  unfold emitPhase emitLoopRun
  exact emitLoopFuel_seq tsB srcid _ _ st.parent

theorem payloadAfterCheck_seq (ts : A → Nat) (tsB : B → Nat) (m : Maker σ A B) (srcid : Nat)
    (st : W3State A B σ) (inp : TSet A) :
    (payloadAfterCheck ts tsB m srcid st inp).st.parent.sent_count
        = st.parent.sent_count + succCount (payloadAfterCheck ts tsB m srcid st inp).sends
      ∧ SeqAligned st.parent.sent_count (payloadAfterCheck ts tsB m srcid st inp).sends := by
  unfold payloadAfterCheck
  rcases hb : TimeSliceInputBuffer.buffer ts st.inBuf inp with ⟨ib', sl⟩
  rcases sl with _ | ⟨slice, s0, e0⟩
  · simp [succCount, SeqAligned]
  · simpa using emitPhase_seq tsB srcid
      { st with inBuf := ib', maker := (processSlice m st.maker slice).maker }
      (processSlice m st.maker slice).outs

theorem heartbeatAfterFlush_seq (tsB : B → Nat) (m : Maker σ A B) (srcid : Nat)
    (st : W3State A B σ) (inp : TSet A) (ib' : Option (Nat × Nat × List A))
    (σ1 : σ) (elems : List B) (iss : List Issue) :
    (heartbeatAfterFlush tsB m srcid st inp ib' σ1 elems iss).st.parent.sent_count
        = st.parent.sent_count
          + succCount (heartbeatAfterFlush tsB m srcid st inp ib' σ1 elems iss).sends
      ∧ SeqAligned st.parent.sent_count
          (heartbeatAfterFlush tsB m srcid st inp ib' σ1 elems iss).sends := by
  unfold heartbeatAfterFlush
  rcases hfl : m.flush σ1 inp.end_time with _ | ⟨σ2, more⟩
  · simp [succCount, SeqAligned]
  · simpa using emitPhase_seq tsB srcid _ (elems ++ more)

theorem process3_seq (ts : A → Nat) (tsB : B → Nat) (m : Maker σ A B) (srcid : Nat)
    (st : W3State A B σ) (inp : TSet A) :
    (process3 ts tsB m srcid st inp).st.parent.sent_count
        = st.parent.sent_count + succCount (process3 ts tsB m srcid st inp).sends
      ∧ SeqAligned st.parent.sent_count (process3 ts tsB m srcid st inp).sends := by
  unfold process3
  cases hst : inp.stype with
  | payload =>
    simpa using payloadAfterCheck_seq ts tsB m srcid
      { st with prev_start_time := inp.start_time } inp
  | heartbeat =>
    rcases hfl : TimeSliceInputBuffer.flush ts st.inBuf with ⟨ib', sl⟩
    rcases sl with _ | ⟨slice, s0, e0⟩
    · simpa using heartbeatAfterFlush_seq tsB m srcid st inp ib' st.maker [] []
    · simpa using heartbeatAfterFlush_seq tsB m srcid st inp ib'
        (processSlice m st.maker slice).maker (processSlice m st.maker slice).outs
        ((if inp.start_time < e0 then [Issue.outOfOrderFatal e0 inp.start_time] else [])
          ++ (processSlice m st.maker slice).issues)
  | unknown =>
    simpa using emitPhase_seq tsB srcid st ([] : List B)

theorem run3_seq (ts : A → Nat) (tsB : B → Nat) (m : Maker σ A B) (srcid : Nat) :
    ∀ (inputs : List (TSet A)) (st : W3State A B σ),
      (run3 ts tsB m srcid st inputs).st.parent.sent_count
          = st.parent.sent_count + succCount (run3 ts tsB m srcid st inputs).sends
        ∧ SeqAligned st.parent.sent_count (run3 ts tsB m srcid st inputs).sends := by
  intro inputs
  induction inputs with
  | nil => intro st; simp [run3, succCount, SeqAligned]
  | cons i rest ih =>
    intro st
    have h1 := process3_seq ts tsB m srcid st i
    have h2 := ih (process3 ts tsB m srcid st i).st
    rw [run3]
    constructor
    · simp only [succCount_append]
      omega
    · exact seqAligned_append h1.2 (by rw [← h1.1]; exact h2.2)

theorem drain3_seq (ts : A → Nat) (tsB : B → Nat) (m : Maker σ A B) (srcid : Nat)
    (drop : Bool) (st : W3State A B σ) :
    (drain3 ts tsB m srcid drop st).st.parent.sent_count
        = st.parent.sent_count + succCount (drain3 ts tsB m srcid drop st).sends
      ∧ SeqAligned st.parent.sent_count (drain3 ts tsB m srcid drop st).sends := by
  unfold drain3 drainLoopRun
  exact drainLoopFuel_seq tsB srcid drop _ _ st.parent

theorem runAndDrain_seq (ts : A → Nat) (tsB : B → Nat) (m : Maker σ A B) (srcid : Nat)
    (st : W3State A B σ) (inputs : List (TSet A)) (drop : Bool) :
    (runAndDrain ts tsB m srcid st inputs drop).st.parent.sent_count
        = st.parent.sent_count + succCount (runAndDrain ts tsB m srcid st inputs drop).sends
      ∧ SeqAligned st.parent.sent_count (runAndDrain ts tsB m srcid st inputs drop).sends := by
  have h1 := run3_seq ts tsB m srcid inputs st
  have h2 := drain3_seq ts tsB m srcid drop (run3 ts tsB m srcid st inputs).st
  unfold runAndDrain
  constructor
  · simp only [succCount_append]
    omega
  · exact seqAligned_append h1.2 (by rw [← h1.1]; exact h2.2)

/-- C3: For every run of a Mode 3 stage (any initial worker state, inputs,
send oracle and drain policy), the `seqno` values carried by the `Set<B>`
outputs that are successfully sent are strictly increasing in emission
order. -/
theorem c3_seqno_strictly_increasing (ts : A → Nat) (tsB : B → Nat) (m : Maker σ A B)
    (srcid : Nat) (st : W3State A B σ) (inputs : List (TSet A)) (drop : Bool) :
    List.Pairwise (· < ·)
      (seqnosOfSuccesses (runAndDrain ts tsB m srcid st inputs drop).sends) := by
  rw [seqAligned_seqnos (runAndDrain_seq ts tsB m srcid st inputs drop).2]
  exact seqFrom_pairwise _ _

/-- C10: In a Mode 3 run started from a fresh worker state
(`m_sent_count = 0`), a failed send does not consume a sequence number: the
successful sends carry `seqno` values `0, 1, 2, …` (the `i`-th successful
send, 0-based, has `seqno = i`), and any send attempted directly after a
failed attempt carries the same `seqno` that the dropped output had. -/
theorem c10_seqno_reused_after_failed_send (ts : A → Nat) (tsB : B → Nat) (m : Maker σ A B)
    (srcid : Nat) (σ0 : σ) (w b : Nat) (oracle : List Bool) (inputs : List (TSet A))
    (drop : Bool) :
    seqnosOfSuccesses
        (runAndDrain ts tsB m srcid (initState σ0 w b oracle) inputs drop).sends
      = List.range
          (succCount (runAndDrain ts tsB m srcid (initState σ0 w b oracle) inputs drop).sends)
    ∧ ∀ (i : Nat)
        (hi : i + 1 < (runAndDrain ts tsB m srcid (initState σ0 w b oracle) inputs drop).sends.length),
        ((runAndDrain ts tsB m srcid (initState σ0 w b oracle) inputs drop).sends.get
            ⟨i, Nat.lt_of_succ_lt hi⟩).2 = false →
        ((runAndDrain ts tsB m srcid (initState σ0 w b oracle) inputs drop).sends.get
            ⟨i + 1, hi⟩).1.seqno
          = ((runAndDrain ts tsB m srcid (initState σ0 w b oracle) inputs drop).sends.get
              ⟨i, Nat.lt_of_succ_lt hi⟩).1.seqno := by
  have hal := (runAndDrain_seq ts tsB m srcid (initState σ0 w b oracle) inputs drop).2
  have hzero : (initState σ0 w b oracle : W3State A B σ).parent.sent_count = 0 := rfl
  rw [hzero] at hal
  constructor
  · rw [seqAligned_seqnos hal, seqFrom_zero_eq_range]
  · intro i hi hfail
    set tr := (runAndDrain ts tsB m srcid (initState σ0 w b oracle) inputs drop).sends with htr
    have g1 := seqAligned_get hal i (Nat.lt_of_succ_lt hi)
    have g2 := seqAligned_get hal (i + 1) hi
    have htake : tr.take (i + 1) = tr.take i ++ [tr.get ⟨i, Nat.lt_of_succ_lt hi⟩] := by
      rw [← List.take_concat_get tr i (Nat.lt_of_succ_lt hi)]
      simp [List.concat_eq_append, List.get_eq_getElem]
    rw [g1, g2, htake, succCount_append]
    have : succCount [tr.get ⟨i, Nat.lt_of_succ_lt hi⟩] = 0 := by
      rcases hg : tr.get ⟨i, Nat.lt_of_succ_lt hi⟩ with ⟨s0, ok0⟩
      rw [hg] at hfail
      simp at hfail
      subst hfail
      simp [succCount]
    omega

theorem drainLoopFuel_drop_no_sends (tsB : B → Nat) (srcid : Nat) :
    ∀ (fuel : Nat) (buf : OutBuf B) (p : Parent),
      (drainLoopFuel tsB srcid true fuel buf p).sends = []
        ∧ (drainLoopFuel tsB srcid true fuel buf p).parent = p := by
  intro fuel
  induction fuel with
  | zero => intro buf p; simp [drainLoopFuel]
  | succ fuel ih =>
    intro buf p
    rw [drainLoopFuel]
    rcases hf : flushOut tsB buf with _ | ⟨out, buf'⟩
    · simp
    · cases hst : out.stype with
      | heartbeat => simp only [hst, if_pos rfl]; exact ih buf' p
      | payload =>
        by_cases he : out.objects.isEmpty
        · simp only [hst, if_pos he]; exact ih buf' p
        · simp only [hst, if_neg he, if_pos rfl]; exact ih buf' p
      | unknown => simp only [hst]; exact ih buf' p

/-- C8: In Mode 3, `drain(drop=true)` sends nothing downstream and leaves the
parent counters (in particular `m_sent_count`) unchanged, for every content
of the input and output buffers: partial windows present at stop are
released internally but never forwarded. -/
theorem c8_drain_drop_forwards_nothing (ts : A → Nat) (tsB : B → Nat) (m : Maker σ A B)
    (srcid : Nat) (st : W3State A B σ) :
    (drain3 ts tsB m srcid true st).sends = []
      ∧ (drain3 ts tsB m srcid true st).st.parent = st.parent := by
  unfold drain3 drainLoopRun
  exact drainLoopFuel_drop_no_sends tsB srcid _ _ st.parent

theorem afterFalseFlag_innerRecvs (rs : List Bool) (l : List DWEvent) :
    afterFalseFlag (innerRecvs rs ++ l) = afterFalseFlag l := by
  induction rs with
  | nil => simp [innerRecvs, afterFalseFlag]
  | cons ok rest ih =>
    cases ok <;> simp [innerRecvs, afterFalseFlag, ih]

/-- C9: In every `do_work` execution, once the running flag is observed
`false` the worker exits the receive loop at once: strictly after the
`false` flag read, the trace contains no receive (successful or timed out)
and consists of exactly the `drain` call. -/
theorem c9_no_receive_after_false_flag_read (sched : List (List Bool)) :
    afterFalseFlag (doWorkTrace sched) = [DWEvent.drainCall] := by
  induction sched with
  | nil => rfl
  | cons rs rest ih =>
    simp [doWorkTrace, afterFalseFlag, afterFalseFlag_innerRecvs, ih]

/-- What `flushOut` pops: either the earliest payload window (heartbeat queue
untouched, the produced set is a `windowSet`, hence payload-typed), or the
head of the heartbeat queue (buckets untouched). -/
theorem flushOut_cases {tsB : B → Nat} {buf buf' : OutBuf B} {out : TSet B}
    (h : flushOut tsB buf = some (out, buf')) :
    (out.stype = SetType.payload ∧ buf'.heartbeats = buf.heartbeats)
      ∨ (∃ hbs, buf.heartbeats = out :: hbs ∧ buf'.heartbeats = hbs) := by
  unfold flushOut at h
  rcases hb : buf.buckets with _ | ⟨⟨k, es⟩, bs⟩ <;>
    rcases hh : buf.heartbeats with _ | ⟨hb0, hbs⟩ <;>
      simp only [hb, hh] at h
  · cases h
  · cases h
    exact Or.inr ⟨hbs, rfl, rfl⟩
  · cases h
    exact Or.inl ⟨rfl, rfl⟩
  · split at h <;> cases h
    · exact Or.inl ⟨rfl, rfl⟩
    · exact Or.inr ⟨hbs, rfl, rfl⟩

theorem emitLoopFuel_payload_sends_nonempty (tsB : B → Nat) (srcid : Nat) :
    ∀ (fuel : Nat) (buf : OutBuf B) (p : Parent) (s : TSet B × Bool),
      s ∈ (emitLoopFuel tsB srcid fuel buf p).sends →
      s.1.stype = SetType.payload → s.1.objects ≠ [] := by
  intro fuel
  induction fuel with
  | zero => intro buf p s hs; simp [emitLoopFuel] at hs
  | succ fuel ih =>
    intro buf p s hs hpay
    rw [emitLoopFuel] at hs
    by_cases hr : ready buf
    · rw [if_pos hr] at hs
      rcases hf : flushOut tsB buf with _ | ⟨out, buf'⟩ <;> rw [hf] at hs
      · simp at hs
      · cases hst : out.stype with
        | heartbeat =>
          simp only [hst, List.mem_cons] at hs
          rcases hs with rfl | hs
          · simp only [hst] at hpay; cases hpay
          · exact ih buf' (trySend p).2 s hs hpay
        | payload =>
          simp only [hst] at hs
          by_cases he : out.objects.isEmpty
          · rw [if_pos he] at hs
            exact ih buf' p s hs hpay
          · rw [if_neg he] at hs
            simp only [List.mem_cons] at hs
            rcases hs with rfl | hs
            · simpa using he
            · exact ih buf' (trySend p).2 s hs hpay
        | unknown =>
          simp only [hst] at hs
          exact ih buf' p s hs hpay
    · rw [if_neg hr] at hs
      simp at hs

theorem drainLoopFuel_payload_sends_nonempty (tsB : B → Nat) (srcid : Nat) (drop : Bool) :
    ∀ (fuel : Nat) (buf : OutBuf B) (p : Parent) (s : TSet B × Bool),
      s ∈ (drainLoopFuel tsB srcid drop fuel buf p).sends →
      s.1.stype = SetType.payload → s.1.objects ≠ [] := by
  intro fuel
  induction fuel with
  | zero => intro buf p s hs; simp [drainLoopFuel] at hs
  | succ fuel ih =>
    intro buf p s hs hpay
    rw [drainLoopFuel] at hs
    rcases hf : flushOut tsB buf with _ | ⟨out, buf'⟩ <;> rw [hf] at hs
    · simp at hs
    · cases hst : out.stype with
      | heartbeat =>
        simp only [hst] at hs
        by_cases hd : drop
        · rw [if_pos hd] at hs
          exact ih buf' p s hs hpay
        · rw [if_neg hd] at hs
          simp only [List.mem_cons] at hs
          rcases hs with rfl | hs
          · simp only [hst] at hpay; cases hpay
          · exact ih buf' (trySend p).2 s hs hpay
      | payload =>
        simp only [hst] at hs
        by_cases he : out.objects.isEmpty
        · rw [if_pos he] at hs
          exact ih buf' p s hs hpay
        · rw [if_neg he] at hs
          by_cases hd : drop
          · rw [if_pos hd] at hs
            exact ih buf' p s hs hpay
          · rw [if_neg hd] at hs
            simp only [List.mem_cons] at hs
            rcases hs with rfl | hs
            · simpa using he
            · exact ih buf' (trySend p).2 s hs hpay
      | unknown =>
        simp only [hst] at hs
        exact ih buf' p s hs hpay

theorem hbAttempts_cons (s : TSet B) (ok : Bool) (tr : List (TSet B × Bool)) :
    hbAttempts ((s, ok) :: tr)
      = (if s.stype = SetType.heartbeat then 1 else 0) + hbAttempts tr := by
  by_cases h : s.stype = SetType.heartbeat <;>
    simp [hbAttempts, List.filter_cons, h, Nat.add_comm]

/-- Every heartbeat the `process` emission loop pops from the output buffer
gets a send attempt: the popped heartbeats are exactly the heartbeat-typed
send attempts. -/
theorem emitLoopFuel_hb_count (tsB : B → Nat) (srcid : Nat) :
    ∀ (fuel : Nat) (buf : OutBuf B) (p : Parent), HbWF buf →
      buf.heartbeats.length
          = (emitLoopFuel tsB srcid fuel buf p).buf.heartbeats.length
            + hbAttempts (emitLoopFuel tsB srcid fuel buf p).sends
        ∧ HbWF (emitLoopFuel tsB srcid fuel buf p).buf := by
  intro fuel
  induction fuel with
  | zero => intro buf p hwf; exact ⟨by simp [emitLoopFuel, hbAttempts], by simpa [emitLoopFuel]⟩
  | succ fuel ih =>
    intro buf p hwf
    rw [emitLoopFuel]
    by_cases hr : ready buf
    · rw [if_pos hr]
      rcases hf : flushOut tsB buf with _ | ⟨out, buf'⟩
      · exact ⟨by simp [hbAttempts], hwf⟩
      · rcases flushOut_cases hf with ⟨hstp, hhb⟩ | ⟨hbs, hhb, hhb'⟩
        · -- a payload window was popped; the heartbeat queue is untouched
          have hwf' : HbWF buf' := by
            intro x hx
            exact hwf x (by rwa [← hhb])
          have ihs := (ih buf' (trySend p).2 hwf').1
          have ihs2 := (ih buf' (trySend p).2 hwf').2
          have ihp := (ih buf' p hwf').1
          have ihp2 := (ih buf' p hwf').2
          rw [hhb] at ihs ihp
          cases hst : out.stype with
          | heartbeat => rw [hst] at hstp; cases hstp
          | payload =>
            simp only [hst]
            by_cases he : out.objects.isEmpty
            · rw [if_pos he]
              exact ⟨ihp, ihp2⟩
            · rw [if_neg he]
              refine ⟨?_, ihs2⟩
              rw [hbAttempts_cons]
              simp only [hst]
              simp only [if_neg (by simp : ¬(SetType.payload = SetType.heartbeat))]
              omega
          | unknown =>
            simp only [hst]
            exact ⟨ihp, ihp2⟩
        · -- the head of the heartbeat queue was popped
          have hout : out.stype = SetType.heartbeat :=
            hwf out (by rw [hhb]; exact List.mem_cons_self _ _)
          have hwf' : HbWF buf' := by
            intro x hx
            apply hwf
            rw [hhb]
            rw [hhb'] at hx
            exact List.mem_cons_of_mem _ hx
          have ihs := (ih buf' (trySend p).2 hwf').1
          have ihs2 := (ih buf' (trySend p).2 hwf').2
          rw [hhb'] at ihs
          simp only [hout]
          refine ⟨?_, ihs2⟩
          rw [hbAttempts_cons]
          simp [hout, hhb]
          omega
    · rw [if_neg hr]
      exact ⟨by simp [hbAttempts], hwf⟩

/-- Every heartbeat the `drain(drop=false)` loop pops from the output buffer
gets a send attempt. -/
theorem drainLoopFuel_hb_count (tsB : B → Nat) (srcid : Nat) :
    ∀ (fuel : Nat) (buf : OutBuf B) (p : Parent), HbWF buf →
      buf.heartbeats.length
          = (drainLoopFuel tsB srcid false fuel buf p).buf.heartbeats.length
            + hbAttempts (drainLoopFuel tsB srcid false fuel buf p).sends
        ∧ HbWF (drainLoopFuel tsB srcid false fuel buf p).buf := by
  intro fuel
  induction fuel with
  | zero => intro buf p hwf; exact ⟨by simp [drainLoopFuel, hbAttempts], by simpa [drainLoopFuel]⟩
  | succ fuel ih =>
    intro buf p hwf
    rw [drainLoopFuel]
    rcases hf : flushOut tsB buf with _ | ⟨out, buf'⟩
    · exact ⟨by simp [hbAttempts], hwf⟩
    · rcases flushOut_cases hf with ⟨hstp, hhb⟩ | ⟨hbs, hhb, hhb'⟩
      · have hwf' : HbWF buf' := by
          intro x hx
          exact hwf x (by rwa [← hhb])
        have ihs := (ih buf' (trySend p).2 hwf').1
        have ihs2 := (ih buf' (trySend p).2 hwf').2
        have ihp := (ih buf' p hwf').1
        have ihp2 := (ih buf' p hwf').2
        rw [hhb] at ihs ihp
        cases hst : out.stype with
        | heartbeat => rw [hst] at hstp; cases hstp
        | payload =>
          simp only [hst]
          by_cases he : out.objects.isEmpty
          · rw [if_pos he]
            exact ⟨ihp, ihp2⟩
          · rw [if_neg he]
            simp only [Bool.false_eq_true, if_false]
            refine ⟨?_, ihs2⟩
            rw [hbAttempts_cons]
            simp only [hst]
            simp only [if_neg (by simp : ¬(SetType.payload = SetType.heartbeat))]
            omega
        | unknown =>
          simp only [hst]
          exact ⟨ihp, ihp2⟩
      · have hout : out.stype = SetType.heartbeat :=
          hwf out (by rw [hhb]; exact List.mem_cons_self _ _)
        have hwf' : HbWF buf' := by
          intro x hx
          apply hwf
          rw [hhb]
          rw [hhb'] at hx
          exact List.mem_cons_of_mem _ hx
        have ihs := (ih buf' (trySend p).2 hwf').1
        have ihs2 := (ih buf' (trySend p).2 hwf').2
        rw [hhb'] at ihs
        simp only [hout]
        simp only [Bool.false_eq_true, if_false]
        refine ⟨?_, ihs2⟩
        rw [hbAttempts_cons]
        simp [hout, hhb]
        omega

theorem emitPhase_payload_sends_nonempty (tsB : B → Nat) (srcid : Nat)
    (st : W3State A B σ) (elems : List B) :
    ∀ s ∈ (emitPhase tsB srcid st elems).sends,
      s.1.stype = SetType.payload → s.1.objects ≠ [] := by
  unfold emitPhase emitLoopRun
  intro s hs
  exact emitLoopFuel_payload_sends_nonempty tsB srcid _ _ _ s hs

theorem payloadAfterCheck_payload_sends_nonempty (ts : A → Nat) (tsB : B → Nat)
    (m : Maker σ A B) (srcid : Nat) (st : W3State A B σ) (inp : TSet A) :
    ∀ s ∈ (payloadAfterCheck ts tsB m srcid st inp).sends,
      s.1.stype = SetType.payload → s.1.objects ≠ [] := by
  unfold payloadAfterCheck
  rcases hb : TimeSliceInputBuffer.buffer ts st.inBuf inp with ⟨ib', sl⟩
  rcases sl with _ | ⟨slice, s0, e0⟩
  · intro s hs
    simp at hs
  · intro s hs hpay
    refine emitPhase_payload_sends_nonempty tsB srcid
      { st with inBuf := ib', maker := (processSlice m st.maker slice).maker }
      (processSlice m st.maker slice).outs s ?_ hpay
    simpa using hs

theorem heartbeatAfterFlush_payload_sends_nonempty (tsB : B → Nat) (m : Maker σ A B)
    (srcid : Nat) (st : W3State A B σ) (inp : TSet A) (ib' : Option (Nat × Nat × List A))
    (σ1 : σ) (elems : List B) (iss : List Issue) :
    ∀ s ∈ (heartbeatAfterFlush tsB m srcid st inp ib' σ1 elems iss).sends,
      s.1.stype = SetType.payload → s.1.objects ≠ [] := by
  unfold heartbeatAfterFlush
  rcases hm : m.flush σ1 inp.end_time with _ | ⟨σ2, more⟩
  · intro s hs
    simp at hs
  · intro s hs hpay
    refine emitPhase_payload_sends_nonempty tsB srcid
      { st with
        inBuf := ib',
        outBuf := TimeSliceOutputBuffer.buffer_heartbeat st.outBuf
          ⟨SetType.heartbeat, inp.start_time, inp.end_time, srcid, 0, []⟩,
        maker := σ2 }
      (elems ++ more) s ?_ hpay
    simpa using hs

theorem process3_payload_sends_nonempty (ts : A → Nat) (tsB : B → Nat) (m : Maker σ A B)
    (srcid : Nat) (st : W3State A B σ) (inp : TSet A) :
    ∀ s ∈ (process3 ts tsB m srcid st inp).sends,
      s.1.stype = SetType.payload → s.1.objects ≠ [] := by
  unfold process3
  cases hst : inp.stype with
  | payload =>
    intro s hs hpay
    refine payloadAfterCheck_payload_sends_nonempty ts tsB m srcid
      { st with prev_start_time := inp.start_time } inp s ?_ hpay
    simpa using hs
  | heartbeat =>
    rcases hfl : TimeSliceInputBuffer.flush ts st.inBuf with ⟨ib', sl⟩
    rcases sl with _ | ⟨slice, s0, e0⟩
    · exact heartbeatAfterFlush_payload_sends_nonempty tsB m srcid st inp ib' st.maker [] []
    · exact heartbeatAfterFlush_payload_sends_nonempty tsB m srcid st inp ib'
        (processSlice m st.maker slice).maker (processSlice m st.maker slice).outs _
  | unknown =>
    intro s hs hpay
    refine emitPhase_payload_sends_nonempty tsB srcid st ([] : List B) s ?_ hpay
    simpa using hs

theorem drain3_payload_sends_nonempty (ts : A → Nat) (tsB : B → Nat) (m : Maker σ A B)
    (srcid : Nat) (drop : Bool) (st : W3State A B σ) :
    ∀ s ∈ (drain3 ts tsB m srcid drop st).sends,
      s.1.stype = SetType.payload → s.1.objects ≠ [] := by
  unfold drain3 drainLoopRun
  intro s hs
  exact drainLoopFuel_payload_sends_nonempty tsB srcid drop _ _ _ s hs

theorem run3_payload_sends_nonempty (ts : A → Nat) (tsB : B → Nat) (m : Maker σ A B)
    (srcid : Nat) :
    ∀ (inputs : List (TSet A)) (st : W3State A B σ),
      ∀ s ∈ (run3 ts tsB m srcid st inputs).sends,
        s.1.stype = SetType.payload → s.1.objects ≠ [] := by
  intro inputs
  induction inputs with
  | nil => intro st s hs; simp [run3] at hs
  | cons i rest ih =>
    intro st s hs
    rw [run3] at hs
    simp only [List.mem_append] at hs
    rcases hs with hs | hs
    · exact process3_payload_sends_nonempty ts tsB m srcid st i s hs
    · exact ih _ s hs

/-- C4 (amended): in Mode 3, every payload-typed `Set<B>` the stage attempts
to send — in `process` or in `drain`, whatever the drop policy — has a
non-empty objects sequence, and every heartbeat popped from the output
buffer by the `process` emission loop or by `drain(drop=false)` receives
exactly one send attempt.  (Heartbeats popped by `drain(drop=true)` are
dropped, not forwarded: see the counterexample.) -/
theorem c4_payload_nonempty_heartbeats_forwarded (ts : A → Nat) (tsB : B → Nat)
    (m : Maker σ A B) (srcid : Nat) (st : W3State A B σ) (inputs : List (TSet A))
    (drop : Bool) :
    (∀ s ∈ (runAndDrain ts tsB m srcid st inputs drop).sends,
        s.1.stype = SetType.payload → s.1.objects ≠ [])
      ∧ (∀ (buf : OutBuf B) (p : Parent), HbWF buf →
          buf.heartbeats.length
            = (emitLoopRun tsB srcid buf p).buf.heartbeats.length
              + hbAttempts (emitLoopRun tsB srcid buf p).sends)
      ∧ (∀ (buf : OutBuf B) (p : Parent), HbWF buf →
          buf.heartbeats.length
            = (drainLoopRun tsB srcid false buf p).buf.heartbeats.length
              + hbAttempts (drainLoopRun tsB srcid false buf p).sends) := by
  refine ⟨?_, ?_, ?_⟩
  · intro s hs hpay
    unfold runAndDrain at hs
    simp only [List.mem_append] at hs
    rcases hs with hs | hs
    · exact run3_payload_sends_nonempty ts tsB m srcid inputs st s hs hpay
    · exact drain3_payload_sends_nonempty ts tsB m srcid drop _ s hs hpay
  · intro buf p hwf
    exact (emitLoopFuel_hb_count tsB srcid (obSize buf) buf p hwf).1
  · intro buf p hwf
    exact (drainLoopFuel_hb_count tsB srcid (obSize buf) buf p hwf).1

/-- C4 counterexample: in Mode 3, `drain(drop=true)` pops the pending
heartbeat from the output buffer (leaving it empty) yet attempts no send —
so a heartbeat popped from the output buffer is not always forwarded,
contrary to the claim's universal reading over `process` and `drain`. -/
theorem c4_counterexample_drain_drop_heartbeat :
    stHbPending.outBuf.heartbeats = [hbPending]
      ∧ (drain3 id id idMaker 7 true stHbPending).st.outBuf.heartbeats = []
      ∧ (drain3 id id idMaker 7 true stHbPending).sends = [] := by
  refine ⟨rfl, ?_, ?_⟩ <;> rfl

theorem c4_witness :
    ((⟨⟨SetType.payload, 0, 100, 7, 0, [5]⟩, true⟩ : TSet Nat × Bool)
          ∈ (runAndDrain id id idMaker 7 (initState () 100 0 []) [wInp1, wInp2] true).sends
        ∧ (⟨SetType.payload, 0, 100, 7, 0, [5]⟩ : TSet Nat).objects ≠ [])
      ∧ (HbWF stHbPending.outBuf
        ∧ stHbPending.outBuf.heartbeats.length
            = (emitLoopRun id 7 stHbPending.outBuf ⟨0, []⟩).buf.heartbeats.length
              + hbAttempts (emitLoopRun id 7 stHbPending.outBuf ⟨0, []⟩).sends)
      ∧ (HbWF stHbPending.outBuf
        ∧ stHbPending.outBuf.heartbeats.length
            = (drainLoopRun id 7 false stHbPending.outBuf ⟨0, []⟩).buf.heartbeats.length
              + hbAttempts (drainLoopRun id 7 false stHbPending.outBuf ⟨0, []⟩).sends) := by
  have hwf : HbWF stHbPending.outBuf := by
    intro h hm
    rw [show stHbPending.outBuf.heartbeats = [hbPending] from rfl] at hm
    rcases List.mem_singleton.mp hm with rfl
    rfl
  refine ⟨⟨by decide, ?_⟩, ⟨hwf, ?_⟩, ⟨hwf, ?_⟩⟩
  · exact (c4_payload_nonempty_heartbeats_forwarded id id idMaker 7
      (initState () 100 0 []) [wInp1, wInp2] true).1
      ⟨⟨SetType.payload, 0, 100, 7, 0, [5]⟩, true⟩ (by decide) (by decide)
  · exact (c4_payload_nonempty_heartbeats_forwarded id id idMaker 7
      (initState () 100 0 []) [wInp1, wInp2] true).2.1 stHbPending.outBuf ⟨0, []⟩ hwf
  · exact (c4_payload_nonempty_heartbeats_forwarded id id idMaker 7
      (initState () 100 0 []) [wInp1, wInp2] true).2.2 stHbPending.outBuf ⟨0, []⟩ hwf

/-- C5: In Mode 3, a payload set whose `start_time` is strictly below the
start time of the previously processed payload set (held in
`m_prev_start_time`) triggers an `OutOfOrderSets` warning, and the set is
still absorbed and processed normally: the step equals the ordinary payload
path with the warning prepended to its issues. -/
theorem c5_out_of_order_payload_warned_and_absorbed (ts : A → Nat) (tsB : B → Nat)
    (m : Maker σ A B) (srcid : Nat) (st : W3State A B σ) (inp : TSet A)
    (h1 : inp.stype = SetType.payload)
    (h2 : inp.start_time < st.prev_start_time) :
    process3 ts tsB m srcid st inp
      = { payloadAfterCheck ts tsB m srcid { st with prev_start_time := inp.start_time } inp with
          issues := Issue.outOfOrderWarn st.prev_start_time inp.start_time
            :: (payloadAfterCheck ts tsB m srcid
                  { st with prev_start_time := inp.start_time } inp).issues } := by
  unfold process3
  rw [h1]
  have hg : st.prev_start_time ≠ 0 ∧ inp.start_time < st.prev_start_time :=
    ⟨by omega, h2⟩
  simp only [if_pos hg]
  rfl

theorem c5_witness :
    (inpLate.stype = SetType.payload ∧ inpLate.start_time < stPrev200.prev_start_time)
      ∧ process3 id id idMaker 7 stPrev200 inpLate
        = { payloadAfterCheck id id idMaker 7
              { stPrev200 with prev_start_time := inpLate.start_time } inpLate with
            issues := Issue.outOfOrderWarn stPrev200.prev_start_time inpLate.start_time
              :: (payloadAfterCheck id id idMaker 7
                    { stPrev200 with prev_start_time := inpLate.start_time } inpLate).issues } :=
  ⟨⟨rfl, by decide⟩,
    c5_out_of_order_payload_warned_and_absorbed id id idMaker 7 stPrev200 inpLate rfl
      (by decide)⟩

/-- C6: On a heartbeat input the input buffer is flushed; when the flushed
slice's `end_time` is strictly greater than the heartbeat's `start_time`, a
fatal `OutOfOrderSets` is emitted and the flushed slice is nevertheless
still run through the algorithm.  In Mode 3 the step equals the normal
heartbeat continuation applied to the `processSlice` result with the fatal
issue in front of the slice's issues; in the Mode 2 worker the fatal issue
is likewise recorded while the slice is still processed. -/
theorem c6_heartbeat_ooo_fatal_still_processed (ts : A → Nat) (tsB : B → Nat)
    (m : Maker σ A B) (srcid : Nat) :
    (∀ (st : W3State A B σ) (inp : TSet A) (ib' : Option (Nat × Nat × List A))
        (slice : List A) (s0 e0 : Nat),
        inp.stype = SetType.heartbeat →
        TimeSliceInputBuffer.flush ts st.inBuf = (ib', some (slice, s0, e0)) →
        inp.start_time < e0 →
        Issue.outOfOrderFatal e0 inp.start_time ∈ (process3 ts tsB m srcid st inp).issues
          ∧ process3 ts tsB m srcid st inp
            = heartbeatAfterFlush tsB m srcid st inp ib' (processSlice m st.maker slice).maker
                (processSlice m st.maker slice).outs
                (Issue.outOfOrderFatal e0 inp.start_time
                  :: (processSlice m st.maker slice).issues))
      ∧ (∀ (st : W2State A σ) (inp : TSet A) (ib' : Option (Nat × Nat × List A))
          (slice : List A) (s0 e0 : Nat),
          inp.stype = SetType.heartbeat →
          TimeSliceInputBuffer.flush ts st.inBuf = (ib', some (slice, s0, e0)) →
          inp.start_time < e0 →
          Issue.outOfOrderFatal e0 inp.start_time ∈ (process2 ts m st inp).issues) := by
  constructor
  · intro st inp ib' slice s0 e0 h1 h2 h3
    have heq : process3 ts tsB m srcid st inp
        = heartbeatAfterFlush tsB m srcid st inp ib' (processSlice m st.maker slice).maker
            (processSlice m st.maker slice).outs
            (Issue.outOfOrderFatal e0 inp.start_time
              :: (processSlice m st.maker slice).issues) := by
      unfold process3
      rw [h1, h2]
      simp only [if_pos h3]
      rfl
    refine ⟨?_, heq⟩
    rw [heq]
    unfold heartbeatAfterFlush
    rcases hm : m.flush (processSlice m st.maker slice).maker inp.end_time with _ | ⟨σ2, more⟩ <;>
      simp
  · intro st inp ib' slice s0 e0 h1 h2 h3
    unfold process2
    rw [h1]
    dsimp only
    rw [h2]
    simp only [if_pos h3]
    rcases hm : m.flush (processSlice m st.maker slice).maker inp.end_time with _ | ⟨σ2, more⟩ <;>
      simp

theorem c6_witness :
    (Issue.outOfOrderFatal 100 hbEarly.start_time
        ∈ (process3 id id idMaker 7 stSlice hbEarly).issues)
      ∧ (Issue.outOfOrderFatal 100 hbEarly.start_time
        ∈ (process2 id idMaker st2c hbEarly).issues) :=
  ⟨((c6_heartbeat_ooo_fatal_still_processed id id idMaker 7).1 stSlice hbEarly none [5] 0 100
      rfl (by decide) (by decide)).1,
    (c6_heartbeat_ooo_fatal_still_processed id id idMaker 7).2 st2c hbEarly none [5] 0 100
      rfl (by decide) (by decide)⟩

/-- If the algorithm throws on element `x` after cleanly processing the
prefix `sl1` (or already threw inside `sl1`), `process_slice` reports
exactly one `AlgorithmFatalError` for the invocation. -/
theorem processSlice_throw (m : Maker σ A B) :
    ∀ (sl1 : List A) (σ1 : σ) (x : A) (sl2 : List A),
      m.apply (processSlice m σ1 sl1).maker x = none →
      (processSlice m σ1 (sl1 ++ x :: sl2)).issues = [Issue.algorithmFatal] := by
  intro sl1
  induction sl1 with
  | nil =>
    intro σ1 x sl2 h
    simp only [processSlice] at h
    simp [processSlice, h]
  | cons y sl1 ih =>
    intro σ1 x sl2 h
    rcases ha : m.apply σ1 y with _ | ⟨σ', ys⟩
    · simp [processSlice, ha]
    · simp only [processSlice, ha] at h ⊢
      exact ih σ' x sl2 h

/-- C7: A failure of the algorithm's `apply` (during a completed slice) or
`flush` (at a heartbeat) is caught inside the worker, reported as an
`AlgorithmFatalError` for the current invocation only, and never
propagates: the worker's run continues, processing the remaining inputs
exactly as `process3` from the post-failure state.  The base-template
worker (Mode 1) likewise catches an `apply` throw, records the fatal issue
and sends nothing for that invocation. -/
theorem c7_algorithm_failure_contained (ts : A → Nat) (tsB : B → Nat) (m : Maker σ A B)
    (srcid : Nat) (st : W3State A B σ) (inp : TSet A) (rest : List (TSet A)) :
    ((inp.stype = SetType.heartbeat → st.inBuf = none →
        m.flush st.maker inp.end_time = none →
        (process3 ts tsB m srcid st inp).issues = [Issue.algorithmFatal]
          ∧ (process3 ts tsB m srcid st inp).sends = [])
      ∧ (∀ (ib' : Option (Nat × Nat × List A)) (slice sl1 : List A) (x : A) (sl2 : List A)
            (s0 e0 : Nat),
          inp.stype = SetType.payload →
          TimeSliceInputBuffer.buffer ts st.inBuf inp = (ib', some (slice, s0, e0)) →
          slice = sl1 ++ x :: sl2 →
          m.apply (processSlice m st.maker sl1).maker x = none →
          Issue.algorithmFatal ∈ (process3 ts tsB m srcid st inp).issues))
      ∧ run3 ts tsB m srcid st (inp :: rest)
          = ⟨(run3 ts tsB m srcid (process3 ts tsB m srcid st inp).st rest).st,
              (process3 ts tsB m srcid st inp).issues
                ++ (run3 ts tsB m srcid (process3 ts tsB m srcid st inp).st rest).issues,
              (process3 ts tsB m srcid st inp).sends
                ++ (run3 ts tsB m srcid (process3 ts tsB m srcid st inp).st rest).sends⟩
      ∧ (∀ (σ1 : σ) (p : Parent) (x : A), m.apply σ1 x = none →
          (process1 m σ1 p x).2.1 = [Issue.algorithmFatal]
            ∧ (process1 m σ1 p x).2.2 = []) := by
  refine ⟨⟨?_, ?_⟩, ?_, ?_⟩
  · intro h1 h2 h3
    unfold process3
    rw [h1, h2]
    unfold TimeSliceInputBuffer.flush heartbeatAfterFlush
    rw [h3]
    exact ⟨rfl, rfl⟩
  · intro ib' slice sl1 x sl2 s0 e0 hpay hbuf hsl happ
    unfold process3
    rw [hpay]
    unfold payloadAfterCheck
    dsimp only
    rw [hbuf]
    have hiss : (processSlice m st.maker slice).issues = [Issue.algorithmFatal] := by
      rw [hsl]
      exact processSlice_throw m sl1 st.maker x sl2 happ
    simp [hiss]
  · rw [run3]
  · intro σ1 p x h
    unfold process1
    rw [h]
    exact ⟨rfl, rfl⟩

theorem c7_witness :
    ((process3 id id throwMaker 7 stEmptyW hbIn).issues = [Issue.algorithmFatal]
        ∧ (process3 id id throwMaker 7 stEmptyW hbIn).sends = [])
      ∧ Issue.algorithmFatal ∈ (process3 id id throwMaker 7 stSlice inpNext).issues
      ∧ ((process1 throwMaker () (⟨0, []⟩ : Parent) 5).2.1 = [Issue.algorithmFatal]
          ∧ (process1 throwMaker () (⟨0, []⟩ : Parent) 5).2.2 = ([] : List (Nat × Bool))) :=
  ⟨(c7_algorithm_failure_contained id id throwMaker 7 stEmptyW hbIn []).1.1 rfl rfl rfl,
   (c7_algorithm_failure_contained id id throwMaker 7 stSlice inpNext []).1.2
     (some (100, 200, [7])) [5] [] 5 [] 0 100 rfl (by decide) rfl rfl,
   (c7_algorithm_failure_contained id id throwMaker 7 stSlice inpNext []).2.2
     () (⟨0, []⟩ : Parent) 5 rfl⟩

theorem sortByTs_sorted (ts : T → Nat) (l : List T) :
    List.Sorted (fun a b => ts a ≤ ts b) (sortByTs ts l) := by
  haveI : IsTotal T (fun a b => ts a ≤ ts b) := ⟨fun a b => Nat.le_total _ _⟩
  haveI : IsTrans T (fun a b => ts a ≤ ts b) := ⟨fun a b c => Nat.le_trans⟩
  exact List.sorted_insertionSort _ l

/-- A slice released by the input buffer is sorted by `time_start`. -/
theorem buffer_released_sorted (ts : A → Nat) (st : Option (Nat × Nat × List A))
    (inp : TSet A) (ib' : Option (Nat × Nat × List A)) (slice : List A) (s0 e0 : Nat)
    (h : TimeSliceInputBuffer.buffer ts st inp = (ib', some (slice, s0, e0))) :
    List.Sorted (fun a b => ts a ≤ ts b) slice := by
  unfold TimeSliceInputBuffer.buffer at h
  rcases st with _ | ⟨s, e, elems⟩
  · simp at h
  · dsimp only at h
    by_cases hk : s = inp.start_time ∧ e = inp.end_time
    · rw [if_pos hk] at h
      simp at h
    · rw [if_neg hk] at h
      have : slice = sortByTs ts elems := by
        have := congrArg Prod.snd h
        simp at this
        exact this.1.symm
      rw [this]
      exact sortByTs_sorted ts elems

theorem sendEach_map_fst (v : List B) (p : Parent) :
    (sendEach v p).sends.map Prod.fst = v := by
  induction v generalizing p with
  | nil => rfl
  | cons x xs ih => simp [sendEach, ih]

/-- C2 (amended): in Mode 2, when a payload completes a time slice, the
algorithm is invoked on the slice elements in time order (the released
slice is sorted by `time_start`), but the produced `B`s are attempted on
the output channel in REVERSE production order: the attempted sequence is
the reverse of the concatenation of each element's outputs, because the
send loop pops `out_vec` from the back. -/
theorem c2_mode2_slice_outputs_emitted_reversed (ts : A → Nat) (m : Maker σ A B)
    (st : W2State A σ) (inp : TSet A) (ib' : Option (Nat × Nat × List A))
    (slice : List A) (s0 e0 : Nat)
    (h1 : inp.stype = SetType.payload)
    (h2 : TimeSliceInputBuffer.buffer ts st.inBuf inp = (ib', some (slice, s0, e0))) :
    List.Sorted (fun a b => ts a ≤ ts b) slice
      ∧ (process2 ts m st inp).sends.map Prod.fst
          = (processSlice m st.maker slice).outs.reverse := by
  refine ⟨buffer_released_sorted ts st.inBuf inp ib' slice s0 e0 h2, ?_⟩
  unfold process2
  rw [h1, h2]
  unfold sendLoop2
  simp [sendEach_map_fst]

/-- C2 counterexample: with an algorithm that emits `[10, 11]` for the slice
`[5]`, the Mode 2 stage attempts the sends in the order `[11, 10]` — the
reverse of the concatenation of the produced outputs, not the
concatenation itself. -/
theorem c2_counterexample_emission_not_in_production_order :
    (processSlice dupMaker () [5]).outs = [10, 11]
      ∧ (process2 id dupMaker st2c inp2c).sends.map Prod.fst = [11, 10]
      ∧ ([11, 10] : List Nat) ≠ [10, 11] := by
  decide

theorem c2_witness :
    (inp2c.stype = SetType.payload
        ∧ TimeSliceInputBuffer.buffer id st2c.inBuf inp2c
            = (some (100, 200, [7]), some ([5], 0, 100)))
      ∧ List.Sorted (fun a b => (id : Nat → Nat) a ≤ id b) [5]
      ∧ (process2 id dupMaker st2c inp2c).sends.map Prod.fst
          = (processSlice dupMaker st2c.maker [5]).outs.reverse :=
  ⟨⟨rfl, by decide⟩,
    c2_mode2_slice_outputs_emitted_reversed id dupMaker st2c inp2c
      (some (100, 200, [7])) [5] 0 100 rfl (by decide)⟩

/-- C1 (code bug): the claim says drain at worker exit always completes, but
in Mode 2 the source loop
`while (out_vec.size()) { if (!drop) { send(out_vec.back()); out_vec.pop_back(); } }`
guards the `pop_back` by `!drop` as well, so with `drop = true` (the value
`do_work` always passes) an iteration leaves the state unchanged.  Here the
flushed input slice makes the algorithm produce `out_vec = [5]`, and
iterating the loop body any number of times is the identity: the loop
guard `out_vec.size() ≠ 0` never becomes false, i.e. `drain(drop=true)`
spins forever and `stop` never completes. -/
theorem c1_mode2_drain_drop_never_terminates :
    drain2Setup id idMaker stDrain1 = some ⟨(), [5], []⟩
      ∧ ∀ (n : Nat) (p : Parent),
          (drain2LoopStep true)^[n] (([5] : List Nat), p) = ([5], p) := by
  constructor
  · rfl
  · intro n p
    exact Function.iterate_fixed rfl n

end Trigger
